import Mathlib

/-
  Verification of the cube decoding / normalization / scoring / ranking core of
  src/eurostat_data_manager.py (class EurostatDataManager), as a shallow embedding:

  * Python floats are modelled as rationals (ℚ); machine floating point is not modelled.
  * The SQLite tables `cities` and `indicators` are modelled as lists of records
    (`City`, `Obs`); SQL NULL is `Option.none`.  SQL semantics that matter here are
    modelled explicitly: `UPPER()` is ASCII-only upper-casing, `=` on TEXT is
    case-sensitive, `ORDER BY ... DESC` puts NULLs last (SQLite treats NULL as
    smaller than every value), and a UNIQUE constraint never considers two NULLs
    equal, so `INSERT OR REPLACE` only replaces rows whose `year` is non-NULL.
  * Python dicts are modelled as association lists in insertion order
    (`Record`); `dict.get` takes the first binding.  The JSON-decoded `status`
    map of a cube has string keys (JSON object keys are always strings), while
    `store_data`'s records are built by `parse_jsonstat`; the generic dict
    lookup over `PyKey` keeps the string-key/int-key distinction observable.
  * Exceptions are modelled with `Except`: `parse_jsonstat` can raise
    ZeroDivisionError (a zero dimension size) or IndexError (more dimension
    names than sizes); inside `store_data` a per-record failure is caught and
    counted in `errors`, keeping the writes already applied for that record.
  * `list.sort` / `ORDER BY` are modelled by a stable structural insertion sort
    (`sortLe`), matching Python's stable sort and a deterministic choice of the
    SQLite row order for ties.
-/

set_option maxHeartbeats 1000000

namespace Eurostat

instance {ε α : Type} [DecidableEq ε] [DecidableEq α] : DecidableEq (Except ε α) := by
  intro a b
  cases a <;> cases b
  case error.error e1 e2 => exact decidable_of_iff (e1 = e2) (by simp)
  case ok.ok a1 a2 => exact decidable_of_iff (a1 = a2) (by simp)
  all_goals exact isFalse (by simp)

/-- ASCII lower-casing of one character (Python str.lower restricted to ASCII). -/
def lowerChar (c : Char) : Char :=
  if 'A' ≤ c ∧ c ≤ 'Z' then Char.ofNat (c.toNat + 32) else c

/-- Python `s.lower()` (ASCII fragment). -/
def pyLower (s : String) : String := String.mk (s.data.map lowerChar)

/-- ASCII upper-casing of one character (SQLite UPPER() is ASCII-only). -/
def upperChar (c : Char) : Char :=
  if 'a' ≤ c ∧ c ≤ 'z' then Char.ofNat (c.toNat - 32) else c

/-- SQLite `UPPER(s)`, and Python `s.upper()` on ASCII strings. -/
def sqlUpper (s : String) : String := String.mk (s.data.map upperChar)

/-- Does the second list start with the first one? -/
def leadMatch : List Char → List Char → Bool
  | [], _ => true
  | _ :: _, [] => false
  | a :: as, b :: bs => a == b && leadMatch as bs

/-- Does the pattern occur as a contiguous subsequence of the second list? -/
def containsSeq : List Char → List Char → Bool
  | pat, [] => pat == []
  | pat, h :: t => leadMatch pat (h :: t) || containsSeq pat t

/-- Python `pat in hay` on strings. -/
def pyIn (hay pat : String) : Bool := containsSeq pat.data hay.data

/-- Python `s.endswith(pat)`. -/
def pyEndsWith (s pat : String) : Bool := leadMatch pat.data.reverse s.data.reverse

/-- Python `s.startswith(pat)`. -/
def pyStartsWith (s pat : String) : Bool := leadMatch pat.data s.data

/-- Python `s[:n]`. -/
def pyTake (s : String) (n : Nat) : String := String.mk (s.data.take n)

/-- A Python value as it occurs in a parsed record: a string, a number, or None. -/
inductive PyVal where
  | str (s : String)
  | num (q : ℚ)
  | null
deriving DecidableEq

/-- A Python dict key as it occurs in a decoded JSON status map: JSON object keys
are strings, but `store_data` also looks maps up with integer keys. -/
inductive PyKey where
  | str (s : String)
  | int (n : Int)
deriving DecidableEq

/-- Python `==` between dict keys: values of different types are never equal. -/
def pyKeyEq : PyKey → PyKey → Bool
  | .str a, .str b => a == b
  | .int a, .int b => a == b
  | _, _ => false

/-- A Python dict with string keys, in insertion order. -/
abbrev Record := List (String × PyVal)

/-- Python `record.get(k)` (first binding wins; keys are unique in real dicts). -/
def recGet? (r : Record) (k : String) : Option PyVal :=
  (r.find? (fun p => p.1 == k)).map (fun p => p.2)

/-- Python `record.get(k, d)`. -/
def recGetD (r : Record) (k : String) (d : PyVal) : PyVal := (recGet? r k).getD d

/-- Python `record[k] = v`: replace in place if the key exists, else append. -/
def recSet (r : Record) (k : String) (v : PyVal) : Record :=
  if (r.find? (fun p => p.1 == k)).isSome then
    r.map (fun p => if p.1 == k then (k, v) else p)
  else r ++ [(k, v)]

/-- Python `next((k for k in record if pred(k)), None)`: first key satisfying the
predicate, in insertion order. -/
def firstKey (r : Record) (p : String → Bool) : Option String :=
  (r.find? (fun kv => p kv.1)).map (fun kv => kv.1)

/-! ### CoordinateDecoder (EurostatDataManager._index_to_coords) -/

/-- The loop of `_index_to_coords`: walk a (already reversed) size list,
collecting `index % size` and integer-dividing. -/
def decodeRev : Nat → List Nat → List Nat
  | _, [] => []
  | i, s :: rest => (i % s) :: decodeRev (i / s) rest

/-- `_index_to_coords(index, sizes)`: iterate over `reversed(sizes)` taking
`index % size` then `index //= size`, and reverse the collected coordinates. -/
def index_to_coords (index : Nat) (sizes : List Nat) : List Nat :=
  (decodeRev index sizes.reverse).reverse

/-- Positional (little-endian) encoding of coordinates against sizes. -/
def encodeRev : List Nat → List Nat → Nat
  | c :: cs, s :: ss => c + s * encodeRev cs ss
  | _, _ => 0

/-- Re-encode coordinates to a flat index under the same last-dimension-fastest
convention used by `_index_to_coords`. -/
def coords_to_index (coords sizes : List Nat) : Nat :=
  encodeRev coords.reverse sizes.reverse

/-! ### Cube and CubeDecoder (parse_jsonstat) -/

/-- Per-dimension category metadata: the category→index map and the
category→label map, in insertion order. -/
structure DimCat where
  index : List (String × Nat)
  label : List (String × String)
deriving DecidableEq

/-- A JSON-stat cube as consumed by `parse_jsonstat`: ordered dimension names
(`id`), a parallel size list, per-dimension metadata, the flat value array
(entries may be null), and the sparse status map (JSON keys, i.e. strings). -/
structure Cube where
  id : List String
  size : List Nat
  dimension : List (String × DimCat)
  value : List (Option ℚ)
  status : List (PyKey × String)
deriving DecidableEq

/-- `dimensions.get(dim_name, {}).get('category', {})` with empty defaults. -/
def dimCatOf (m : List (String × DimCat)) (k : String) : DimCat :=
  ((m.find? (fun p => p.1 == k)).map (fun p => p.2)).getD ⟨[], []⟩

/-- `cat_label.get(key, key)`. -/
def labelGetD (m : List (String × String)) (k d : String) : String :=
  ((m.find? (fun p => p.1 == k)).map (fun p => p.2)).getD d

/-- Generic dict `.get` over `PyKey` keys (Python `==` semantics). -/
def statusGet (m : List (PyKey × String)) (k : PyKey) : Option String :=
  (m.find? (fun p => pyKeyEq p.1 k)).map (fun p => p.2)

/-- The `value` cell of a record. -/
def pyOfValue : Option ℚ → PyVal
  | some q => .num q
  | none => .null

/-- One iteration of the record loop of `parse_jsonstat`: decode coordinates,
look each dimension's category code up by reverse search in the index map
(first match wins), add label (defaulting to the code), then the value and the
status entry (`status.get(idx, '') if status else ''`, an integer-key lookup). -/
def buildRecord (c : Cube) (idx : Nat) (v : Option ℚ) : Record :=
  let coords := index_to_coords idx c.size
  let withDims := c.id.enum.foldl (fun r p =>
    let cat := dimCatOf c.dimension p.2
    match cat.index.find? (fun q => q.2 == coords.getD p.1 0) with
    | some kv =>
        recSet (recSet r p.2 (.str kv.1)) (p.2 ++ "_label") (.str (labelGetD cat.label kv.1 kv.1))
    | none => r) ([] : Record)
  let withVal := recSet withDims "value" (pyOfValue v)
  recSet withVal "status"
    (.str (if c.status.isEmpty then "" else (statusGet c.status (.int idx)).getD ""))

/-- `parse_jsonstat(data)`: one record per entry of the value array, in flat
index order.  There is no shape validation; the only failures are the Python
runtime errors: a zero dimension size (ZeroDivisionError inside
`_index_to_coords`) and more dimension names than sizes (IndexError on
`coords[i]`), both of which require at least one value cell to be reached. -/
def parse_jsonstat (c : Cube) : Except String (List Record) :=
  if c.value ≠ [] ∧ 0 ∈ c.size then .error "ZeroDivisionError"
  else if c.value ≠ [] ∧ c.size.length < c.id.length then .error "IndexError"
  else .ok (c.value.enum.map (fun p => buildRecord c p.1 p.2))

/-! ### IndicatorStore state -/

/-- A row of the `cities` table. -/
structure City where
  city_code : String
  city_name : Option String
  country : Option String
  lat : Option ℚ
  lng : Option ℚ
  population : Option Int
deriving DecidableEq

/-- A row of the `indicators` table.  `indicator_name` is stored as a plain
string: whenever `store_data` inserts a row, the `{dim}_label` field is present
in the parsed record (parse_jsonstat always sets code and label together), and
`calculate_score` calls `.lower()` on the name, which requires it non-null. -/
structure Obs where
  city_code : String
  indicator_code : String
  indicator_name : String
  year : Option Int
  value : Option ℚ
  status : String
deriving DecidableEq

/-- The persistent store. -/
structure DB where
  cities : List City
  indicators : List Obs
deriving DecidableEq

/-- The counters reported by `store_data`. -/
structure Counters where
  cities_added : Nat
  indicators_added : Nat
  skipped : Nat
  errors : Nat
deriving DecidableEq

/-- Ingestion state: store plus counters. -/
structure St where
  db : DB
  cnt : Counters
deriving DecidableEq

def incSkipped (st : St) : St :=
  ⟨st.db, ⟨st.cnt.cities_added, st.cnt.indicators_added, st.cnt.skipped + 1, st.cnt.errors⟩⟩

def incErrors (st : St) : St :=
  ⟨st.db, ⟨st.cnt.cities_added, st.cnt.indicators_added, st.cnt.skipped, st.cnt.errors + 1⟩⟩

/-- `INSERT OR IGNORE INTO cities (city_code, city_name, country)` followed by
the `rowcount > 0` counter update: insert only if no row has this primary key. -/
def cityInsert (st : St) (code : String) (name : Option String) : St :=
  if st.db.cities.any (fun x => x.city_code == code) then st
  else
    ⟨⟨st.db.cities ++ [⟨code, name, some (sqlUpper (pyTake code 2)), none, none, none⟩],
      st.db.indicators⟩,
     ⟨st.cnt.cities_added + 1, st.cnt.indicators_added, st.cnt.skipped, st.cnt.errors⟩⟩

/-- Do two observation rows collide on the UNIQUE(city_code, indicator_code, year)
constraint?  SQL UNIQUE never treats two NULLs as equal, so rows with NULL year
never collide. -/
def tripleConflict (a b : Obs) : Bool :=
  a.city_code == b.city_code && a.indicator_code == b.indicator_code &&
    (match a.year, b.year with
     | some y1, some y2 => y1 == y2
     | _, _ => false)

/-- `INSERT OR REPLACE INTO indicators ...`: delete every row colliding on the
uniqueness constraint, then insert the new row. -/
def upsertObs (l : List Obs) (o : Obs) : List Obs :=
  l.filter (fun r => !(tripleConflict r o)) ++ [o]

/-- The observation insert of `store_data` plus its `indicators_added` counter
update (incremented even when the insert replaces an existing row). -/
def obsInsert (st : St) (o : Obs) : St :=
  ⟨⟨st.db.cities, upsertObs st.db.indicators o⟩,
   ⟨st.cnt.cities_added, st.cnt.indicators_added + 1, st.cnt.skipped, st.cnt.errors⟩⟩

/-- `record.get(f'{k}_label')` as an optional string. -/
def labelOf (r : Record) (k : String) : Option String :=
  match recGet? r (k ++ "_label") with
  | some (.str s) => some s
  | _ => none

/-- Digit-string value, None if empty or a non-digit occurs. -/
def digitsVal : List Char → Option Nat
  | [] => none
  | l => l.foldl (fun acc c =>
      match acc with
      | none => none
      | some n => if c.isDigit then some (n * 10 + (c.toNat - 48)) else none) (some 0)

/-- Python `int(s)` on a string: optional sign, then digits (ValueError = none). -/
def pyIntOfStr (s : String) : Option Int :=
  match s.data with
  | '-' :: rest => (digitsVal rest).map (fun n => -(n : Int))
  | '+' :: rest => (digitsVal rest).map (fun n => (n : Int))
  | l => (digitsVal l).map (fun n => (n : Int))

/-- Truncation toward zero (Python `int()` on a float). -/
def ratTrunc (q : ℚ) : Int := if q < 0 then -((-q).floor) else q.floor

/-- Python `int(v)` on a record value; `none` models the raised exception. -/
def pyToInt : PyVal → Option Int
  | .str s => pyIntOfStr s
  | .num q => some (ratTrunc q)
  | .null => none

/-- `year = int(record.get(year_key, 0)) if year_key else None`, where
`year_key` is the key equal to 'time' if one exists; an unparsable value raises
ValueError. -/
def yearOf (r : Record) : Except String (Option Int) :=
  if r.any (fun p => p.1 == "time") then
    match pyToInt (recGetD r "time" (.num 0)) with
    | some n => .ok (some n)
    | none => .error "ValueError"
  else .ok none

/-- `value = float(record.get('value', None)) if record.get('value') is not None
else None`; parsed records hold a number or null at 'value'. -/
def valueOf (r : Record) : Option ℚ :=
  match recGetD r "value" .null with
  | .num q => some q
  | _ => none

/-- `record.get('status', '')`; parsed records hold a string there. -/
def statusOf (r : Record) : String :=
  match recGetD r "status" (.str "") with
  | .str s => s
  | _ => ""

/-- The body of the per-record loop of `store_data`, including the
try/except: an exception inside the loop increments `errors` and keeps the
writes already applied for this record.
  * city dimension: first key ending with 'ies'; none → skipped.
  * falsy city code (empty string / None / 0) → skipped; a truthy non-string
    raises AttributeError on `.endswith` → errors.
  * code not ending with 'C' → skipped.
  * country := upper-cased first two characters of the code.
  * indicator dimension: first key starting with 'indic'; none → plain
    `continue`, NOT counted as skipped (the city insert above still happened).
  * a non-integer 'time' value raises ValueError → errors (city insert kept). -/
def processRecord (st : St) (r : Record) : St :=
  match firstKey r (fun k => pyEndsWith k "ies") with
  | none => incSkipped st
  | some ck =>
    match recGetD r ck .null with
    | .str code =>
      if code == "" then incSkipped st
      else if !(pyEndsWith code "C") then incSkipped st
      else
        let st1 := cityInsert st code (labelOf r ck)
        match firstKey r (fun k => pyStartsWith k "indic") with
        | none => st1
        | some ik =>
          match yearOf r with
          | .error _ => incErrors st1
          | .ok year =>
            match recGetD r ik .null with
            | .str icode =>
                obsInsert st1
                  ⟨code, icode, (labelOf r ik).getD "", year, valueOf r, statusOf r⟩
            | _ => incErrors st1
    | .null => incSkipped st
    | .num q => if q == 0 then incSkipped st else incErrors st

/-- The record loop of `store_data` over already-parsed records, starting from
zeroed counters. -/
def ingestRecords (db : DB) (records : List Record) : St :=
  records.foldl processRecord ⟨db, ⟨0, 0, 0, 0⟩⟩

/-- `store_data(dataset)`: parse, then ingest; a parse failure propagates to
the caller. -/
def store_data (db : DB) (c : Cube) : Except String St :=
  (parse_jsonstat c).map (fun records => ingestRecords db records)

/-! ### Normalizer and ScoringEngine -/

/-- `_normalize_value(value, indicator_name)`: keyword-driven unit inference on
the lower-cased name, first match wins, each branch capped at 1.0. -/
def normalize_value (value : ℚ) (indicator_name : String) : ℚ :=
  let name := pyLower indicator_name
  if pyIn name "%" then min (value / 100) 1
  else if pyIn name "minutes" then min (value / 60) 1
  else if pyIn name "km" then min (value / 50) 1
  else if pyIn name "eur" then min (value / 100) 1
  else if pyIn name "per 1000" then min (value / 1000) 1
  else min (value / 100000) 1

def lowerBetterKeywords : List String :=
  ["car", "motor cycle", "death", "accident", "cost", "time", "minutes", "eur"]

/-- `_is_lower_better(indicator_name)`. -/
def is_lower_better (indicator_name : String) : Bool :=
  lowerBetterKeywords.any (fun k => pyIn (pyLower indicator_name) k)

/-- SQLite `ORDER BY year DESC`: NULL is smaller than every integer. -/
def yearLt : Option Int → Option Int → Bool
  | none, some _ => true
  | some a, some b => a < b
  | _, none => false

/-- `SELECT value, indicator_name FROM indicators WHERE city_code = ? AND
indicator_code = ? ORDER BY year DESC LIMIT 1`: a row of maximal year among the
matching rows (ties resolved to the earlier row; SQLite leaves tie order
unspecified, but the uniqueness invariant makes year ties impossible for
ingested stores). -/
def latestObs (l : List Obs) (city indic : String) : Option Obs :=
  (l.filter (fun o => o.city_code == city && o.indicator_code == indic)).foldl
    (fun best o =>
      match best with
      | none => some o
      | some b => if yearLt b.year o.year then some o else some b) none

/-- One iteration of the weight loop of `calculate_score`, accumulating
(total_score, total_weight): skip if no row or a NULL value; otherwise add
`normalized * weight` and `weight`, inverting the normalized value when the
indicator is lower-better. -/
def scoreStep (l : List Obs) (city : String) (acc : ℚ × ℚ) (p : String × ℚ) : ℚ × ℚ :=
  match latestObs l city p.1 with
  | some o =>
    match o.value with
    | some v =>
      let n := normalize_value v o.indicator_name
      let n2 := if is_lower_better o.indicator_name then 1 - n else n
      (acc.1 + n2 * p.2, acc.2 + p.2)
    | none => acc
  | none => acc

/-- `calculate_score(city_code, weights)`: weighted average over the indicators
with data, or 0.0 when total_weight is 0. -/
def calculate_score (l : List Obs) (city : String) (weights : List (String × ℚ)) : ℚ :=
  let acc := weights.foldl (scoreStep l city) (0, 0)
  if 0 < acc.2 then acc.1 / acc.2 else 0

/-! ### RankingEngine -/

/-- Stable insertion into a sorted list: `a` goes before the first element `b`
with `le a b`. -/
def insertLe {α : Type} (le : α → α → Bool) (a : α) : List α → List α
  | [] => [a]
  | b :: bs => if le a b then a :: b :: bs else b :: insertLe le a bs

/-- Stable sort (models Python's stable `list.sort` and a deterministic choice
of SQLite's ORDER BY row order). -/
def sortLe {α : Type} (le : α → α → Bool) : List α → List α
  | [] => []
  | a :: as => insertLe le a (sortLe le as)

/-- Python `round(x, 3)`: round half to even at the third decimal (the binary
floating point representation error is not modelled). -/
def pyRound3 (x : ℚ) : ℚ :=
  let y := x * 1000
  let f : Int := y.floor
  let r := y - f
  let n : Int :=
    if r < 1/2 then f else if 1/2 < r then f + 1 else if f % 2 = 0 then f else f + 1
  (n : ℚ) / 1000

/-- A row returned by `rank_cities`. -/
structure ScoreRow where
  city_code : String
  city_name : Option String
  country : Option String
  score : ℚ
deriving DecidableEq

/-- SQL `country = ?` (case-sensitive; NULL matches nothing). -/
def countryEq (c : Option String) (f : String) : Bool :=
  match c with
  | some s => s == f
  | none => false

/-- SQL `UPPER(country) = UPPER(?)` (NULL matches nothing). -/
def countryEqUpper (c : Option String) (f : String) : Bool :=
  match c with
  | some s => sqlUpper s == sqlUpper f
  | none => false

/-- `rank_cities(weights, limit, country_filter)`: fetch cities (filtered
case-sensitively by country when the filter is truthy), keep those with
positive score (rounded to 3 digits), sort by score descending (stable), and
truncate to `limit`. -/
def rank_cities (db : DB) (weights : List (String × ℚ)) (limit : Nat)
    (country_filter : Option String) : List ScoreRow :=
  let cities :=
    match country_filter with
    | some f => if f == "" then db.cities else db.cities.filter (fun c => countryEq c.country f)
    | none => db.cities
  let rankings := cities.filterMap (fun c =>
    let s := calculate_score db.indicators c.city_code weights
    if 0 < s then some (⟨c.city_code, c.city_name, c.country, pyRound3 s⟩ : ScoreRow) else none)
  (sortLe (fun a b => decide (b.score ≤ a.score)) rankings).take limit

/-- `ORDER BY population DESC` with NULLs last. -/
def popDescLe (a b : City) : Bool :=
  match a.population, b.population with
  | some x, some y => decide (y ≤ x)
  | some _, none => true
  | none, none => true
  | none, some _ => false

/-- A row of the population fallback of `rank_cities_advanced`:
(city_name, country, population-as-score). -/
abbrev FallbackRow := Option String × Option String × Option Int

/-- The result of `rank_cities_advanced`; the two branches return dicts with
different key sets in Python, so the branch taken is observable to the caller. -/
inductive AdvResult where
  | fallback (rows : List FallbackRow)
  | ranked (rows : List ScoreRow)
deriving DecidableEq

/-- The effective `rank_cities_advanced` (the second definition in the class
body, which shadows the first): on empty weights, rank by population
(case-sensitive country match); otherwise delegate to `rank_cities`. -/
def rank_cities_advanced (db : DB) (weights : List (String × ℚ)) (country : String)
    (limit : Nat) : AdvResult :=
  if weights.isEmpty then
    .fallback
      (((sortLe popDescLe (db.cities.filter (fun c => countryEq c.country country))).take limit).map
        (fun c => (c.city_name, c.country, c.population)))
  else .ranked (rank_cities db weights limit (some country))

/-- The data-availability check of the first (shadowed) `rank_cities_advanced`
definition: does any indicator row join a city of the country (case-insensitive
match) with an indicator code among the requested ones? -/
def hasAnyData (db : DB) (weights : List (String × ℚ)) (country : String) : Bool :=
  db.indicators.any (fun i =>
    db.cities.any (fun c => c.city_code == i.city_code && countryEqUpper c.country country) &&
    weights.any (fun p => p.1 == i.indicator_code))

/-- The population fallback query of the first (shadowed) definition:
case-insensitive country match, ORDER BY population DESC NULLS LAST. -/
def popFallbackUpper (db : DB) (country : String) (limit : Nat) : List FallbackRow :=
  ((sortLe popDescLe (db.cities.filter (fun c => countryEqUpper c.country country))).take limit).map
    (fun c => (c.city_name, c.country, c.population))

/-- The first definition of `rank_cities_advanced` (lines 199-225 of the
source), which is shadowed by the later definition and therefore dead code in
Python: empty weights → population fallback; non-empty weights but no data for
any requested indicator in the country → recursive call with empty weights,
which takes the fallback branch in one step (unfolded here); otherwise the
weighted ranking. -/
def rank_cities_advanced_shadowed (db : DB) (weights : List (String × ℚ)) (country : String)
    (limit : Nat) : AdvResult :=
  if weights.isEmpty then .fallback (popFallbackUpper db country limit)
  else if hasAnyData db weights country then
    .ranked (rank_cities db weights limit (some country))
  else .fallback (popFallbackUpper db country limit)

/-- SQL `ORDER BY city_name` (ascending, NULLs first). -/
def nameAscLe (a b : City) : Bool :=
  match a.city_name, b.city_name with
  | none, _ => true
  | some _, none => false
  | some x, some y => decide (x ≤ y)

/-- `list_cities(country)`: all cities, filtered case-insensitively by country
when the filter is truthy, ordered by name. -/
def list_cities (db : DB) (country : Option String) : List City :=
  match country with
  | some f =>
    if f == "" then sortLe nameAscLe db.cities
    else sortLe nameAscLe (db.cities.filter (fun c => countryEqUpper c.country f))
  | none => sortLe nameAscLe db.cities

/-! ## Generic helper lemmas -/

theorem mem_insertLe {α : Type} (le : α → α → Bool) (a x : α) (l : List α) :
    x ∈ insertLe le a l ↔ x = a ∨ x ∈ l := by
  induction l with
  | nil => simp [insertLe]
  | cons b bs ih =>
    simp only [insertLe]
    split
    · simp [List.mem_cons]
    · simp [List.mem_cons, ih]
      tauto

theorem mem_sortLe {α : Type} (le : α → α → Bool) (x : α) (l : List α) :
    x ∈ sortLe le l ↔ x ∈ l := by
  induction l with
  | nil => simp [sortLe]
  | cons a as ih => simp [sortLe, mem_insertLe, ih, List.mem_cons]

theorem zip_reverse_eq {α β : Type} (l1 : List α) (l2 : List β) (h : l1.length = l2.length) :
    l1.reverse.zip l2.reverse = (l1.zip l2).reverse := by
  induction l1 generalizing l2 with
  | nil => cases l2 <;> simp_all
  | cons a as ih =>
    cases l2 with
    | nil => simp at h
    | cons b bs =>
      simp only [List.length_cons, Nat.succ.injEq] at h
      simp only [List.reverse_cons, List.zip_cons_cons]
      rw [List.zip_append (by simp [h])]
      simp [ih bs h]

theorem foldl_choice {α : Type} (P : α → Prop) (f : Option α → α → Option α)
    (hf : ∀ acc x, f acc x = acc ∨ f acc x = some x) :
    ∀ (l : List α) (init : Option α), (∀ a, init = some a → P a) → (∀ x ∈ l, P x) →
      ∀ b, l.foldl f init = some b → P b := by
  intro l
  induction l with
  | nil => exact fun init hinit _ b hb => hinit b hb
  | cons x xs ih =>
    intro init hinit hl b hb
    rw [List.foldl_cons] at hb
    refine ih (f init x) ?_ (fun y hy => hl y (by simp [hy])) b hb
    intro a ha
    rcases hf init x with h | h
    · rw [h] at ha; exact hinit a ha
    · rw [h] at ha
      injection ha with ha'
      subst ha'
      exact hl x (by simp)

/-! ## C5: the coordinate decoder round-trips -/

theorem decodeRev_length (i : Nat) (ss : List Nat) : (decodeRev i ss).length = ss.length := by
  induction ss generalizing i with
  | nil => rfl
  | cons s rest ih => simp [decodeRev, ih]

theorem encodeRev_decodeRev (ss : List Nat) (hpos : ∀ s ∈ ss, 0 < s) (i : Nat) :
    encodeRev (decodeRev i ss) ss = i % ss.prod := by
  induction ss generalizing i with
  | nil => simp [decodeRev, encodeRev, Nat.mod_one]
  | cons s rest ih =>
    have hrest : ∀ x ∈ rest, 0 < x := fun x hx => hpos x (by simp [hx])
    simp only [decodeRev, encodeRev, ih hrest, List.prod_cons]
    rw [Nat.mod_mul]

theorem decodeRev_zip_lt (ss : List Nat) (hpos : ∀ s ∈ ss, 0 < s) (i : Nat) :
    ∀ p ∈ (decodeRev i ss).zip ss, p.1 < p.2 := by
  induction ss generalizing i with
  | nil => simp [decodeRev]
  | cons s rest ih =>
    intro p hp
    simp only [decodeRev, List.zip_cons_cons, List.mem_cons] at hp
    rcases hp with h | h
    · subst h; exact Nat.mod_lt _ (hpos s (by simp))
    · exact ih (fun x hx => hpos x (by simp [hx])) (i / s) p h

/-- C5: for every list of positive dimension sizes and every flat index
`i < ∏ sizes`, `_index_to_coords` returns one coordinate per dimension, in the
original dimension order, each coordinate below its dimension size, and
re-encoding under the same last-dimension-fastest convention recovers `i`. -/
theorem claim_C5_coordinate_roundtrip (sizes : List Nat) (i : Nat)
    (hpos : ∀ s ∈ sizes, 0 < s) (hi : i < sizes.prod) :
    (index_to_coords i sizes).length = sizes.length ∧
    (∀ p ∈ (index_to_coords i sizes).zip sizes, p.1 < p.2) ∧
    coords_to_index (index_to_coords i sizes) sizes = i := by
  have hrevpos : ∀ s ∈ sizes.reverse, 0 < s := fun s hs => hpos s (List.mem_reverse.mp hs)
  refine ⟨?_, ?_, ?_⟩
  · simp [index_to_coords, decodeRev_length]
  · intro p hp
    have key : (decodeRev i sizes.reverse).reverse.zip sizes =
        ((decodeRev i sizes.reverse).zip sizes.reverse).reverse := by
      have h2 := zip_reverse_eq (decodeRev i sizes.reverse) sizes.reverse
        (decodeRev_length i sizes.reverse)
      rwa [List.reverse_reverse] at h2
    rw [index_to_coords, key] at hp
    exact decodeRev_zip_lt sizes.reverse hrevpos i p (List.mem_reverse.mp hp)
  · rw [index_to_coords, coords_to_index, List.reverse_reverse]
    rw [encodeRev_decodeRev _ hrevpos, List.prod_reverse]
    exact Nat.mod_eq_of_lt hi

/-- C5 witness: a concrete round-trip through `_index_to_coords` at
`i = 4`, `sizes = [2, 3]`. -/
theorem claim_C5_coordinate_roundtrip_witness :
    ((∀ s ∈ [2, 3], 0 < s) ∧ 4 < [2, 3].prod) ∧
    (index_to_coords 4 [2, 3]).length = [2, 3].length ∧
    (∀ p ∈ (index_to_coords 4 [2, 3]).zip [2, 3], p.1 < p.2) ∧
    coords_to_index (index_to_coords 4 [2, 3]) [2, 3] = 4 :=
  ⟨⟨by decide, by decide⟩,
    claim_C5_coordinate_roundtrip [2, 3] 4 (by decide) (by decide)⟩

/-! ## C8: the normalizer -/

theorem min_div_mono {c : ℚ} (hc : 0 < c) {v₁ v₂ : ℚ} (h : v₁ ≤ v₂) :
    min (v₁ / c) 1 ≤ min (v₂ / c) 1 := by gcongr

theorem normalize_value_mono (name : String) (v₁ v₂ : ℚ) (h : v₁ ≤ v₂) :
    normalize_value v₁ name ≤ normalize_value v₂ name := by
  simp only [normalize_value]
  split_ifs <;> exact min_div_mono (by norm_num) h

theorem normalize_value_range (v : ℚ) (nm : String) (hv : 0 ≤ v) :
    0 ≤ normalize_value v nm ∧ normalize_value v nm ≤ 1 := by
  simp only [normalize_value]
  split_ifs <;>
    exact ⟨le_min (div_nonneg hv (by norm_num)) zero_le_one, min_le_right _ _⟩

/-- C8: `_normalize_value` applies the first matching rule in the fixed
precedence order (percent, minutes, km, eur, per-1000, default /100000), each
capped at 1; it is monotone in the value and lands in [0, 1] on nonnegative
inputs.  Keyword matching is case-insensitive substring search, embedded as
`pyIn (pyLower name) kw`. -/
theorem claim_C8_normalize_rules (name : String) :
    (∀ v₁ v₂ : ℚ, v₁ ≤ v₂ → normalize_value v₁ name ≤ normalize_value v₂ name) ∧
    (∀ v : ℚ, 0 ≤ v → 0 ≤ normalize_value v name ∧ normalize_value v name ≤ 1) ∧
    (pyIn (pyLower name) "%" = true →
      ∀ v, normalize_value v name = min (v / 100) 1) ∧
    (pyIn (pyLower name) "%" = false → pyIn (pyLower name) "minutes" = true →
      ∀ v, normalize_value v name = min (v / 60) 1) ∧
    (pyIn (pyLower name) "%" = false → pyIn (pyLower name) "minutes" = false →
      pyIn (pyLower name) "km" = true →
      ∀ v, normalize_value v name = min (v / 50) 1) ∧
    (pyIn (pyLower name) "%" = false → pyIn (pyLower name) "minutes" = false →
      pyIn (pyLower name) "km" = false → pyIn (pyLower name) "eur" = true →
      ∀ v, normalize_value v name = min (v / 100) 1) ∧
    (pyIn (pyLower name) "%" = false → pyIn (pyLower name) "minutes" = false →
      pyIn (pyLower name) "km" = false → pyIn (pyLower name) "eur" = false →
      pyIn (pyLower name) "per 1000" = true →
      ∀ v, normalize_value v name = min (v / 1000) 1) ∧
    (pyIn (pyLower name) "%" = false → pyIn (pyLower name) "minutes" = false →
      pyIn (pyLower name) "km" = false → pyIn (pyLower name) "eur" = false →
      pyIn (pyLower name) "per 1000" = false →
      ∀ v, normalize_value v name = min (v / 100000) 1) := by
  refine ⟨normalize_value_mono name, fun v hv => normalize_value_range v name hv,
    ?_, ?_, ?_, ?_, ?_, ?_⟩
  · intro h1 v
    simp [normalize_value, h1]
  · intro h1 h2 v
    simp [normalize_value, h1, h2]
  · intro h1 h2 h3 v
    simp [normalize_value, h1, h2, h3]
  · intro h1 h2 h3 h4 v
    simp [normalize_value, h1, h2, h3, h4]
  · intro h1 h2 h3 h4 h5 v
    simp [normalize_value, h1, h2, h3, h4, h5]
  · intro h1 h2 h3 h4 h5 v
    simp [normalize_value, h1, h2, h3, h4, h5]

/-- C8 witness: the minutes rule at a concrete indicator name and value. -/
theorem claim_C8_normalize_rules_witness :
    ((30 : ℚ) ≤ 45 ∧
      normalize_value 30 "Commuting minutes" ≤ normalize_value 45 "Commuting minutes") ∧
    ((0 : ℚ) ≤ 30 ∧ 0 ≤ normalize_value 30 "Commuting minutes" ∧
      normalize_value 30 "Commuting minutes" ≤ 1) ∧
    (pyIn (pyLower "Commuting minutes") "%" = false ∧
      pyIn (pyLower "Commuting minutes") "minutes" = true ∧
      normalize_value 30 "Commuting minutes" = min ((30 : ℚ) / 60) 1) :=
  ⟨⟨by norm_num, (claim_C8_normalize_rules "Commuting minutes").1 30 45 (by norm_num)⟩,
    ⟨by norm_num, (claim_C8_normalize_rules "Commuting minutes").2.1 30 (by norm_num)⟩,
    ⟨by decide, by decide,
      (claim_C8_normalize_rules "Commuting minutes").2.2.2.1 (by decide) (by decide) 30⟩⟩

/-! ## C2 and C3: the scoring engine -/

/-- The contribution of one weight entry to (total_score, total_weight):
`none` when the latest observation is absent or has a NULL value. -/
def scoreTerm (l : List Obs) (city : String) (p : String × ℚ) : Option (ℚ × ℚ) :=
  match latestObs l city p.1 with
  | some o =>
    match o.value with
    | some v =>
      let n := normalize_value v o.indicator_name
      let n2 := if is_lower_better o.indicator_name then 1 - n else n
      some (n2 * p.2, p.2)
    | none => none
  | none => none

theorem scoreStep_eq (l : List Obs) (city : String) (acc : ℚ × ℚ) (p : String × ℚ) :
    scoreStep l city acc p =
      match scoreTerm l city p with
      | some t => (acc.1 + t.1, acc.2 + t.2)
      | none => acc := by
  cases hlat : latestObs l city p.1 with
  | none => simp only [scoreStep, scoreTerm, hlat]
  | some o =>
    cases hv : o.value with
    | none => simp only [scoreStep, scoreTerm, hlat, hv]
    | some v => simp only [scoreStep, scoreTerm, hlat, hv]

theorem scoreFold_eq (l : List Obs) (city : String) (ws : List (String × ℚ)) (a : ℚ × ℚ) :
    ws.foldl (scoreStep l city) a =
      (a.1 + ((ws.filterMap (scoreTerm l city)).map Prod.fst).sum,
       a.2 + ((ws.filterMap (scoreTerm l city)).map Prod.snd).sum) := by
  induction ws generalizing a with
  | nil => simp
  | cons p rest ih =>
    rw [List.foldl_cons, scoreStep_eq]
    cases h : scoreTerm l city p with
    | none => simp [List.filterMap_cons, h, ih]
    | some t => simp [List.filterMap_cons, h, ih, add_assoc]

theorem latestObs_mem (l : List Obs) (city indic : String) (o : Obs)
    (h : latestObs l city indic = some o) :
    o ∈ l ∧ o.city_code = city ∧ o.indicator_code = indic := by
  unfold latestObs at h
  refine foldl_choice (fun o => o ∈ l ∧ o.city_code = city ∧ o.indicator_code = indic)
    _ ?_ _ none (by simp) ?_ o h
  · intro acc x
    cases acc with
    | none => right; rfl
    | some b =>
      by_cases hy : yearLt b.year x.year = true
      · right; simp [hy]
      · left; simp [hy]
  · intro x hx
    have h1 := List.mem_of_mem_filter hx
    have h2 := List.of_mem_filter hx
    rw [Bool.and_eq_true, beq_iff_eq, beq_iff_eq] at h2
    exact ⟨h1, h2.1, h2.2⟩

theorem scoreTerm_none (l : List Obs) (city : String) (p : String × ℚ)
    (h : ∀ o ∈ l, o.city_code = city → o.indicator_code = p.1 → o.value = none) :
    scoreTerm l city p = none := by
  cases hlat : latestObs l city p.1 with
  | none => simp only [scoreTerm, hlat]
  | some o =>
    obtain ⟨hmem, hc, hi⟩ := latestObs_mem l city p.1 o hlat
    simp only [scoreTerm, hlat, h o hmem hc hi]

/-- C2: `calculate_score` iterates the weight map; an indicator whose latest
observation is absent or NULL contributes to neither sum; every other
indicator contributes `normalized * weight` and `weight`; the result is the
quotient of the sums, and exactly 0 when no requested indicator has a non-null
observation; and an indicator without data can be dropped from the weight map
without changing the score (`{A, B}` with only A's data = `{A}`). -/
theorem claim_C2_score_partial_data (l : List Obs) (city : String) :
    (∀ ws : List (String × ℚ),
      calculate_score l city ws =
        (if 0 < ((ws.filterMap (scoreTerm l city)).map Prod.snd).sum then
          ((ws.filterMap (scoreTerm l city)).map Prod.fst).sum /
            ((ws.filterMap (scoreTerm l city)).map Prod.snd).sum
         else 0)) ∧
    (∀ ws : List (String × ℚ),
      (∀ p ∈ ws, ∀ o ∈ l, o.city_code = city → o.indicator_code = p.1 → o.value = none) →
      calculate_score l city ws = 0) ∧
    (∀ A B : String, ∀ wA wB : ℚ,
      (∀ o ∈ l, o.city_code = city → o.indicator_code = B → o.value = none) →
      calculate_score l city [(A, wA), (B, wB)] = calculate_score l city [(A, wA)]) := by
  refine ⟨?_, ?_, ?_⟩
  · intro ws
    unfold calculate_score
    rw [scoreFold_eq]
    simp
  · intro ws h
    have hterms : ws.filterMap (scoreTerm l city) = [] := by
      rw [List.filterMap_eq_nil_iff]
      intro p hp
      exact scoreTerm_none l city p (h p hp)
    unfold calculate_score
    rw [scoreFold_eq, hterms]
    simp
  · intro A B wA wB h
    have hB : scoreTerm l city (B, wB) = none := scoreTerm_none l city (B, wB) h
    unfold calculate_score
    rw [scoreFold_eq, scoreFold_eq]
    simp [List.filterMap_cons, hB]

/-- C2 witness: with one stored observation for indicator A, the score with
weights on A and a data-free B equals the score with A alone, and the score on
a data-free weight map is 0. -/
theorem claim_C2_score_partial_data_witness :
    calculate_score [⟨"FR001C", "A", "x", some 2020, some 50, ""⟩] "FR001C" [("B", 1)] = 0 ∧
    calculate_score [⟨"FR001C", "A", "x", some 2020, some 50, ""⟩] "FR001C"
        [("A", 1), ("B", 1)] =
      calculate_score [⟨"FR001C", "A", "x", some 2020, some 50, ""⟩] "FR001C" [("A", 1)] :=
  ⟨(claim_C2_score_partial_data _ "FR001C").2.1 [("B", 1)] (by decide),
   (claim_C2_score_partial_data _ "FR001C").2.2 "A" "B" 1 1 (by decide)⟩

theorem scoreTerm_bounds (l : List Obs) (city : String)
    (hval : ∀ o ∈ l, ∀ v, o.value = some v → 0 ≤ v)
    (p : String × ℚ) (hw : 0 ≤ p.2) (t : ℚ × ℚ) (ht : scoreTerm l city p = some t) :
    0 ≤ t.1 ∧ t.1 ≤ t.2 := by
  cases hlat : latestObs l city p.1 with
  | none =>
    simp only [scoreTerm, hlat] at ht
    exact absurd ht (by simp)
  | some o =>
    cases hv : o.value with
    | none =>
      simp only [scoreTerm, hlat, hv] at ht
      exact absurd ht (by simp)
    | some v =>
      simp only [scoreTerm, hlat, hv, Option.some.injEq] at ht
      obtain ⟨hmem, -, -⟩ := latestObs_mem l city p.1 o hlat
      have hv0 : 0 ≤ v := hval o hmem v hv
      have hn := normalize_value_range v o.indicator_name hv0
      have hn2 : 0 ≤ (if is_lower_better o.indicator_name then
          1 - normalize_value v o.indicator_name else normalize_value v o.indicator_name) ∧
          (if is_lower_better o.indicator_name then
          1 - normalize_value v o.indicator_name else normalize_value v o.indicator_name) ≤ 1 := by
        split_ifs
        · constructor <;> linarith [hn.1, hn.2]
        · exact hn
      subst ht
      constructor
      · exact mul_nonneg hn2.1 hw
      · exact mul_le_of_le_one_left hw hn2.2

theorem scoreFold_bounds (l : List Obs) (city : String)
    (hval : ∀ o ∈ l, ∀ v, o.value = some v → 0 ≤ v) :
    ∀ (ws : List (String × ℚ)), (∀ p ∈ ws, 0 ≤ p.2) →
      ∀ acc : ℚ × ℚ, 0 ≤ acc.1 → acc.1 ≤ acc.2 →
      0 ≤ (ws.foldl (scoreStep l city) acc).1 ∧
        (ws.foldl (scoreStep l city) acc).1 ≤ (ws.foldl (scoreStep l city) acc).2 := by
  intro ws
  induction ws with
  | nil => exact fun _ acc h1 h2 => ⟨h1, h2⟩
  | cons p rest ih =>
    intro hw acc h1 h2
    rw [List.foldl_cons, scoreStep_eq]
    cases ht : scoreTerm l city p with
    | none => exact ih (fun q hq => hw q (by simp [hq])) acc h1 h2
    | some t =>
      obtain ⟨ht1, ht2⟩ := scoreTerm_bounds l city hval p (hw p (by simp)) t ht
      exact ih (fun q hq => hw q (by simp [hq])) (acc.1 + t.1, acc.2 + t.2)
        (by positivity) (by exact add_le_add h2 ht2)

/-- C3 (amended): `calculate_score` lands in [0, 1] provided every stored
observation value is nonnegative and every weight is nonnegative.  The claim
as stated (for every store and weight map) is refuted by
`claim_C3_score_range_cex`: a negative value on a lower-is-better indicator
yields a score above 1. -/
theorem claim_C3_score_range (l : List Obs) (city : String) (ws : List (String × ℚ))
    (hval : ∀ o ∈ l, ∀ v, o.value = some v → 0 ≤ v)
    (hw : ∀ p ∈ ws, 0 ≤ p.2) :
    0 ≤ calculate_score l city ws ∧ calculate_score l city ws ≤ 1 := by
  simp only [calculate_score]
  obtain ⟨h1, h2⟩ := scoreFold_bounds l city hval ws hw (0, 0) le_rfl le_rfl
  split_ifs with h
  · exact ⟨div_nonneg h1 h.le, (div_le_one h).mpr h2⟩
  · exact ⟨le_rfl, zero_le_one⟩

/-- C3 counterexample: with a stored value of -50 for the lower-is-better
indicator name "cost", the score under weight 1 is 2001/2000 > 1, so
`calculate_score` does not always lie in [0, 1]. -/
theorem claim_C3_score_range_cex :
    ¬ (calculate_score [⟨"FR001C", "A", "cost", some 2020, some (-50), ""⟩]
        "FR001C" [("A", 1)] ≤ 1) := by
  have hlat : latestObs [⟨"FR001C", "A", "cost", some 2020, some (-50), ""⟩] "FR001C" "A" =
      some ⟨"FR001C", "A", "cost", some 2020, some (-50), ""⟩ := by decide
  have hlow : is_lower_better "cost" = true := by decide
  have h1 : pyIn (pyLower "cost") "%" = false := by decide
  have h2 : pyIn (pyLower "cost") "minutes" = false := by decide
  have h3 : pyIn (pyLower "cost") "km" = false := by decide
  have h4 : pyIn (pyLower "cost") "eur" = false := by decide
  have h5 : pyIn (pyLower "cost") "per 1000" = false := by decide
  have hnorm : normalize_value (-50) "cost" = -1/2000 := by
    simp [normalize_value, h1, h2, h3, h4, h5]
    rw [min_eq_left (by norm_num)]
    norm_num
  have hterm : scoreTerm [⟨"FR001C", "A", "cost", some 2020, some (-50), ""⟩] "FR001C"
      ("A", (1:ℚ)) = some (2001/2000, 1) := by
    simp only [scoreTerm, hlat]
    rw [hnorm]
    simp only [hlow, if_true]
    norm_num
  unfold calculate_score
  rw [scoreFold_eq]
  simp only [List.filterMap_cons, hterm, List.filterMap_nil, List.map_cons, List.map_nil,
    List.sum_cons, List.sum_nil]
  norm_num

/-- C3 witness: a concrete store with a nonnegative value and weight, where the
score indeed lies in [0, 1]. -/
theorem claim_C3_score_range_witness :
    0 ≤ calculate_score [⟨"FR001C", "A", "x", some 2020, some 50, ""⟩] "FR001C" [("A", 1)] ∧
    calculate_score [⟨"FR001C", "A", "x", some 2020, some 50, ""⟩] "FR001C" [("A", 1)] ≤ 1 :=
  claim_C3_score_range _ "FR001C" [("A", 1)]
    (by
      intro o ho v hv
      rw [List.mem_singleton] at ho
      subst ho
      simp only [Option.some.injEq] at hv
      subst hv
      norm_num)
    (by decide)

/-! ## C4 and C9: ingestion -/

theorem cityInsert_indicators (st : St) (code : String) (nm : Option String) :
    (cityInsert st code nm).db.indicators = st.db.indicators := by
  unfold cityInsert
  split <;> rfl

theorem cityInsert_skipped (st : St) (code : String) (nm : Option String) :
    (cityInsert st code nm).cnt.skipped = st.cnt.skipped := by
  unfold cityInsert
  split <;> rfl

theorem cityInsert_cities_mem (st : St) (code : String) (nm : Option String)
    (hC : pyEndsWith code "C" = true) :
    ∀ c ∈ (cityInsert st code nm).db.cities, c ∈ st.db.cities ∨
      (c.country = some (sqlUpper (pyTake c.city_code 2)) ∧
        pyEndsWith c.city_code "C" = true) := by
  intro c hc
  unfold cityInsert at hc
  split at hc
  · exact Or.inl hc
  · simp only [List.mem_append, List.mem_singleton] at hc
    rcases hc with h | h
    · exact Or.inl h
    · subst h
      exact Or.inr ⟨rfl, hC⟩

theorem processRecord_indicators (st : St) (r : Record) :
    (processRecord st r).db.indicators = st.db.indicators ∨
    ∃ o, (processRecord st r).db.indicators = upsertObs st.db.indicators o := by
  unfold processRecord
  split
  · exact Or.inl rfl
  · split
    · split
      · exact Or.inl rfl
      · split
        · exact Or.inl rfl
        · split
          · exact Or.inl (cityInsert_indicators st _ _)
          · split
            · exact Or.inl (cityInsert_indicators st _ _)
            · split
              · exact Or.inr ⟨_, congrArg (fun l => upsertObs l _) (cityInsert_indicators st _ _)⟩
              · exact Or.inl (cityInsert_indicators st _ _)
    · exact Or.inl rfl
    · split
      · exact Or.inl rfl
      · exact Or.inl rfl

theorem processRecord_cities (st : St) (r : Record) :
    ∀ c ∈ (processRecord st r).db.cities, c ∈ st.db.cities ∨
      (c.country = some (sqlUpper (pyTake c.city_code 2)) ∧
        pyEndsWith c.city_code "C" = true) := by
  unfold processRecord
  split
  · exact fun c hc => Or.inl hc
  · split
    · split
      · exact fun c hc => Or.inl hc
      · split
        · exact fun c hc => Or.inl hc
        · rename_i code heqc hemp hC
          have hC' : pyEndsWith code "C" = true := by simpa using hC
          split
          · exact cityInsert_cities_mem st _ _ hC'
          · split
            · exact cityInsert_cities_mem st _ _ hC'
            · split
              · exact cityInsert_cities_mem st _ _ hC'
              · exact cityInsert_cities_mem st _ _ hC'
    · exact fun c hc => Or.inl hc
    · split
      · exact fun c hc => Or.inl hc
      · exact fun c hc => Or.inl hc

/-- The SQL uniqueness invariant: no two stored rows collide on
UNIQUE(city_code, indicator_code, year). -/
def obsUnique (l : List Obs) : Prop :=
  l.Pairwise (fun a b => tripleConflict a b = false)

theorem upsertObs_pairwise (l : List Obs) (o : Obs) (h : obsUnique l) :
    obsUnique (upsertObs l o) := by
  rw [obsUnique, upsertObs, List.pairwise_append]
  refine ⟨h.filter _, by simp, ?_⟩
  intro a ha b hb
  rw [List.mem_singleton] at hb
  subst hb
  have ha' := List.of_mem_filter ha
  rwa [Bool.not_eq_true'] at ha'

theorem ingestRecords_pairwise (rs : List Record) :
    ∀ st : St, obsUnique st.db.indicators →
      obsUnique ((rs.foldl processRecord st).db.indicators) := by
  induction rs with
  | nil => exact fun st h => h
  | cons r rest ih =>
    intro st h
    rw [List.foldl_cons]
    refine ih (processRecord st r) ?_
    rcases processRecord_indicators st r with heq | ⟨o, heq⟩
    · rwa [heq]
    · rw [heq]
      exact upsertObs_pairwise _ o h

/-- The number of stored rows carrying a given key triple. -/
def tripleCount (l : List Obs) (c i : String) (y : Option Int) : Nat :=
  (l.filter (fun o => o.city_code == c && o.indicator_code == i && o.year == y)).length

theorem obsUnique_tripleCount (l : List Obs) (h : obsUnique l) (c i : String) (y : Int) :
    tripleCount l c i (some y) ≤ 1 := by
  unfold obsUnique at h
  unfold tripleCount
  cases hl : l.filter (fun o => o.city_code == c && o.indicator_code == i &&
      o.year == some y) with
  | nil => simp
  | cons a tail =>
    cases tail with
    | nil => simp
    | cons b rest =>
      exfalso
      have hp := h.filter (fun o : Obs => o.city_code == c && o.indicator_code == i &&
        o.year == some y)
      rw [hl] at hp
      have hab : tripleConflict a b = false := (List.pairwise_cons.mp hp).1 b (by simp)
      have hamem : a ∈ l.filter (fun o : Obs => o.city_code == c && o.indicator_code == i &&
          o.year == some y) := by rw [hl]; exact List.mem_cons_self _ _
      have hbmem : b ∈ l.filter (fun o : Obs => o.city_code == c && o.indicator_code == i &&
          o.year == some y) := by rw [hl]; simp
      have ha := List.of_mem_filter hamem
      have hb := List.of_mem_filter hbmem
      simp only [Bool.and_eq_true, beq_iff_eq] at ha hb
      simp [tripleConflict, ha.1.1, ha.1.2, ha.2, hb.1.1, hb.1.2, hb.2] at hab

theorem upsert_last_write (l : List Obs) (o1 o2 : Obs) (c i : String) (y : Int)
    (h1c : o1.city_code = c) (h1i : o1.indicator_code = i) (h1y : o1.year = some y)
    (h2c : o2.city_code = c) (h2i : o2.indicator_code = i) (h2y : o2.year = some y) :
    (upsertObs (upsertObs l o1) o2).filter
      (fun o => o.city_code == c && o.indicator_code == i && o.year == some y) = [o2] := by
  unfold upsertObs
  rw [List.filter_append]
  have hinner : List.filter (fun o : Obs => o.city_code == c && o.indicator_code == i &&
      o.year == some y) (List.filter (fun r => !tripleConflict r o2)
        (List.filter (fun r => !tripleConflict r o1) l ++ [o1])) = [] := by
    rw [List.filter_eq_nil_iff]
    intro x hx
    have hg2 := List.of_mem_filter hx
    rw [Bool.not_eq_true'] at hg2
    intro hpred
    simp only [Bool.and_eq_true, beq_iff_eq] at hpred
    rw [show tripleConflict x o2 = true by
      simp [tripleConflict, hpred.1.1, hpred.1.2, hpred.2, h2c, h2i, h2y]] at hg2
    exact Bool.true_eq_false.mp hg2
  rw [hinner]
  simp [h2c, h2i, h2y]

/-- C4 (amended): for triples with a NON-NULL year, the store holds at most one
row per (entity, indicator, year) triple, the invariant is preserved by every
ingestion batch, and upserting the same non-null-year triple twice leaves
exactly one row, the second one.  The claim as stated — for every triple — is
refuted by `claim_C4_upsert_unique_cex`: SQLite UNIQUE treats NULLs as
distinct, so records without a time dimension (year NULL) duplicate. -/
theorem claim_C4_upsert_unique :
    (∀ (db : DB) (rs : List Record), obsUnique db.indicators →
      ∀ (c i : String) (y : Int),
        tripleCount (ingestRecords db rs).db.indicators c i (some y) ≤ 1) ∧
    (∀ (l : List Obs) (o1 o2 : Obs) (c i : String) (y : Int),
      o1.city_code = c → o1.indicator_code = i → o1.year = some y →
      o2.city_code = c → o2.indicator_code = i → o2.year = some y →
      (upsertObs (upsertObs l o1) o2).filter
        (fun o => o.city_code == c && o.indicator_code == i && o.year == some y) = [o2]) := by
  constructor
  · intro db rs h c i y
    exact obsUnique_tripleCount _ (ingestRecords_pairwise rs ⟨db, ⟨0, 0, 0, 0⟩⟩ h) c i y
  · exact upsert_last_write

/-- C4 counterexample: ingesting the same (entity, indicator) record twice with
different values and NO time dimension (year NULL) leaves TWO rows with the
same (entity, indicator, NULL-year) triple — the uniqueness claim fails for
null-year triples, and the second value does not replace the first. -/
theorem claim_C4_upsert_unique_cex :
    (ingestRecords ⟨[], []⟩
      [[("cities", .str "FR001C"), ("cities_label", .str "Paris"),
        ("indic_ur", .str "TT1"), ("indic_ur_label", .str "T"),
        ("value", .num 1), ("status", .str "")],
       [("cities", .str "FR001C"), ("cities_label", .str "Paris"),
        ("indic_ur", .str "TT1"), ("indic_ur_label", .str "T"),
        ("value", .num 2), ("status", .str "")]]).db.indicators =
      [⟨"FR001C", "TT1", "T", none, some 1, ""⟩, ⟨"FR001C", "TT1", "T", none, some 2, ""⟩] ∧
    tripleCount (ingestRecords ⟨[], []⟩
      [[("cities", .str "FR001C"), ("cities_label", .str "Paris"),
        ("indic_ur", .str "TT1"), ("indic_ur_label", .str "T"),
        ("value", .num 1), ("status", .str "")],
       [("cities", .str "FR001C"), ("cities_label", .str "Paris"),
        ("indic_ur", .str "TT1"), ("indic_ur_label", .str "T"),
        ("value", .num 2), ("status", .str "")]]).db.indicators "FR001C" "TT1" none = 2 := by
  constructor <;> decide

/-- C4 witness: a concrete batch with a year keeps the triple count at 1, and a
concrete double upsert of the same non-null-year triple keeps only the second
row. -/
theorem claim_C4_upsert_unique_witness :
    obsUnique (⟨[], []⟩ : DB).indicators ∧
    tripleCount (ingestRecords ⟨[], []⟩
      [[("cities", .str "FR001C"), ("cities_label", .str "Paris"),
        ("indic_ur", .str "TT1"), ("indic_ur_label", .str "T"),
        ("time", .str "2020"), ("time_label", .str "2020"),
        ("value", .num 1), ("status", .str "")]]).db.indicators "FR001C" "TT1" (some 2020) ≤ 1 ∧
    ((upsertObs (upsertObs [] ⟨"FR001C", "TT1", "T", some 2020, some 1, ""⟩)
        ⟨"FR001C", "TT1", "T", some 2020, some 2, ""⟩).filter
      (fun o => o.city_code == "FR001C" && o.indicator_code == "TT1" &&
        o.year == some 2020) = [⟨"FR001C", "TT1", "T", some 2020, some 2, ""⟩]) := by
  refine ⟨by simp [obsUnique], ?_, ?_⟩
  · exact claim_C4_upsert_unique.1 ⟨[], []⟩ _ (by simp [obsUnique]) "FR001C" "TT1" 2020
  · exact claim_C4_upsert_unique.2 [] _ _ "FR001C" "TT1" 2020 rfl rfl rfl rfl rfl rfl

theorem processRecord_no_entity (st : St) (r : Record)
    (h : firstKey r (fun k => pyEndsWith k "ies") = none) :
    processRecord st r = incSkipped st := by
  simp only [processRecord, h]

theorem processRecord_bad_code (st : St) (r : Record) (ck code : String)
    (hck : firstKey r (fun k => pyEndsWith k "ies") = some ck)
    (hcv : recGetD r ck .null = .str code)
    (hbad : code = "" ∨ pyEndsWith code "C" = false) :
    processRecord st r = incSkipped st := by
  simp only [processRecord, hck, hcv]
  rcases hbad with hb | hb
  · subst hb
    simp
  · by_cases hemp : (code == "") = true <;> simp [hemp, hb]

theorem processRecord_no_indic (st : St) (r : Record) (ck code : String)
    (hck : firstKey r (fun k => pyEndsWith k "ies") = some ck)
    (hcv : recGetD r ck .null = .str code)
    (hemp : (code == "") = false)
    (hC : pyEndsWith code "C" = true)
    (hik : firstKey r (fun k => pyStartsWith k "indic") = none) :
    processRecord st r = cityInsert st code (labelOf r ck) := by
  simp [processRecord, hck, hcv, hemp, hC, hik]

theorem ingestRecords_cities_prop (db : DB) (rs : List Record) :
    ∀ c ∈ (ingestRecords db rs).db.cities, c ∈ db.cities ∨
      (c.country = some (sqlUpper (pyTake c.city_code 2)) ∧
        pyEndsWith c.city_code "C" = true) := by
  have main : ∀ (rs : List Record) (st : St), ∀ c ∈ (rs.foldl processRecord st).db.cities,
      c ∈ st.db.cities ∨ (c.country = some (sqlUpper (pyTake c.city_code 2)) ∧
        pyEndsWith c.city_code "C" = true) := by
    intro rs
    induction rs with
    | nil => exact fun st c hc => Or.inl hc
    | cons r rest ih =>
      intro st c hc
      rw [List.foldl_cons] at hc
      rcases ih (processRecord st r) c hc with h | h
      · exact processRecord_cities st r c h
      · exact Or.inr h
  exact main rs ⟨db, ⟨0, 0, 0, 0⟩⟩

/-- C9 (amended): a record with no entity dimension is skipped and counted; a
record with a falsy entity code or one not ending with the 'C' marker is
skipped and counted (the two-letter prefix is NOT validated — see
`claim_C9_skip_policy_cex`); a record with a valid entity code but no
indicator dimension keeps observations and the skipped counter unchanged
(it is NOT counted; the city insert still happens — see the counterexample);
"XX001" never enters the store; and every entity stored by ingestion carries
the upper-cased first two characters of its code as country. -/
theorem claim_C9_skip_policy :
    (∀ (st : St) (r : Record),
      firstKey r (fun k => pyEndsWith k "ies") = none →
      processRecord st r = incSkipped st) ∧
    (∀ (st : St) (r : Record) (ck code : String),
      firstKey r (fun k => pyEndsWith k "ies") = some ck →
      recGetD r ck .null = .str code →
      (code = "" ∨ pyEndsWith code "C" = false) →
      processRecord st r = incSkipped st) ∧
    (∀ (st : St) (r : Record) (ck code : String),
      firstKey r (fun k => pyEndsWith k "ies") = some ck →
      recGetD r ck .null = .str code →
      (code == "") = false → pyEndsWith code "C" = true →
      firstKey r (fun k => pyStartsWith k "indic") = none →
      processRecord st r = cityInsert st code (labelOf r ck) ∧
      (processRecord st r).db.indicators = st.db.indicators ∧
      (processRecord st r).cnt.skipped = st.cnt.skipped) ∧
    (∀ (db : DB) (rs : List Record),
      (∀ c ∈ db.cities, c.city_code ≠ "XX001") →
      ∀ c ∈ (ingestRecords db rs).db.cities, c.city_code ≠ "XX001") ∧
    (∀ (db : DB) (rs : List Record),
      ∀ c ∈ (ingestRecords db rs).db.cities, c ∈ db.cities ∨
        c.country = some (sqlUpper (pyTake c.city_code 2))) := by
  refine ⟨processRecord_no_entity, processRecord_bad_code, ?_, ?_, ?_⟩
  · intro st r ck code hck hcv hemp hC hik
    have heq := processRecord_no_indic st r ck code hck hcv hemp hC hik
    exact ⟨heq, by rw [heq, cityInsert_indicators], by rw [heq, cityInsert_skipped]⟩
  · intro db rs hdb c hc
    rcases ingestRecords_cities_prop db rs c hc with h | ⟨hcountry, hC⟩
    · exact hdb c h
    · intro hx
      rw [hx] at hC
      exact absurd hC (by decide)
  · intro db rs c hc
    rcases ingestRecords_cities_prop db rs c hc with h | ⟨hcountry, hC⟩
    · exact Or.inl h
    · exact Or.inr hcountry

/-- C9 counterexample: a record carrying an entity dimension but no indicator
dimension is NOT counted in the skipped counter (the claim says it is), and
the entity code "1C" — which has no two-letter country prefix — is stored
rather than skipped. -/
theorem claim_C9_skip_policy_cex :
    firstKey [("cities", PyVal.str "FR001C"), ("cities_label", PyVal.str "Paris"),
        ("value", PyVal.num 1), ("status", PyVal.str "")]
      (fun k => pyStartsWith k "indic") = none ∧
    (ingestRecords ⟨[], []⟩
      [[("cities", PyVal.str "FR001C"), ("cities_label", PyVal.str "Paris"),
        ("value", PyVal.num 1), ("status", PyVal.str "")]]).cnt.skipped = 0 ∧
    (ingestRecords ⟨[], []⟩
      [[("cities", PyVal.str "1C"), ("cities_label", PyVal.str "X"),
        ("value", PyVal.num 1), ("status", PyVal.str "")]]).db.cities =
      [⟨"1C", some "X", some "1C", none, none, none⟩] := by
  refine ⟨by decide, by decide, by decide⟩

/-- C9 witness: a record with no entity dimension and a record with code
"XX001" are both skipped and counted, and "XX001" never enters the store. -/
theorem claim_C9_skip_policy_witness :
    (processRecord ⟨⟨[], []⟩, ⟨0, 0, 0, 0⟩⟩ [("value", PyVal.num 1)] =
      incSkipped ⟨⟨[], []⟩, ⟨0, 0, 0, 0⟩⟩) ∧
    (processRecord ⟨⟨[], []⟩, ⟨0, 0, 0, 0⟩⟩
        [("cities", PyVal.str "XX001"), ("value", PyVal.num 1)] =
      incSkipped ⟨⟨[], []⟩, ⟨0, 0, 0, 0⟩⟩) ∧
    (∀ c ∈ (ingestRecords ⟨[], []⟩
        [[("cities", PyVal.str "XX001"), ("value", PyVal.num 1)]]).db.cities,
      c.city_code ≠ "XX001") := by
  refine ⟨claim_C9_skip_policy.1 _ _ (by decide),
    claim_C9_skip_policy.2.1 _ _ "cities" "XX001" (by decide) (by decide) (Or.inr (by decide)),
    claim_C9_skip_policy.2.2.2.1 ⟨[], []⟩ _ (by simp) ⟩

/-! ## C6 and C7: the cube decoder -/

/-- C6 (amended): `parse_jsonstat` performs NO shape validation: for every
cube with positive dimension sizes and at most as many dimension names as
sizes, the decode call succeeds and produces one record per value-array entry,
even when ∏sizes differs from the value length (flat indices beyond the
declared shape decode modulo the sizes).  No InvalidCubeShape condition exists
in the code; the claim as stated is refuted by
`claim_C6_no_shape_validation_cex`. -/
theorem claim_C6_no_shape_validation (c : Cube) (hpos : ∀ s ∈ c.size, 0 < s)
    (hdims : c.id.length ≤ c.size.length) :
    parse_jsonstat c = .ok (c.value.enum.map (fun p => buildRecord c p.1 p.2)) ∧
    (c.value.enum.map (fun p => buildRecord c p.1 p.2)).length = c.value.length := by
  constructor
  · unfold parse_jsonstat
    split_ifs with h1 h2
    · exact absurd (hpos 0 h1.2) (by norm_num)
    · exact absurd hdims (by omega)
    · rfl
  · simp

/-- C6 counterexample: a cube declaring one dimension of size 2 but carrying
3 values (∏sizes = 2 ≠ 3) decodes WITHOUT failing, producing 3 records — the
third one re-using the coordinates of flat index 2 mod 2 = 0. -/
theorem claim_C6_no_shape_validation_cex :
    ([2] : List Nat).prod = 2 ∧
    ([some 1, some 2, some 3] : List (Option ℚ)).length = 3 ∧
    parse_jsonstat ⟨["d"], [2], [("d", ⟨[("a", 0), ("b", 1)], []⟩)],
        [some 1, some 2, some 3], []⟩ =
      .ok [[("d", .str "a"), ("d_label", .str "a"), ("value", .num 1), ("status", .str "")],
           [("d", .str "b"), ("d_label", .str "b"), ("value", .num 2), ("status", .str "")],
           [("d", .str "a"), ("d_label", .str "a"), ("value", .num 3), ("status", .str "")]] := by
  refine ⟨by decide, by decide, by decide⟩

/-- C6 witness: a concrete well-shaped cube decodes successfully. -/
theorem claim_C6_no_shape_validation_witness :
    (∀ s ∈ ([1, 2] : List Nat), 0 < s) ∧
    parse_jsonstat ⟨["a", "b"], [1, 2],
        [("a", ⟨[("x", 0)], []⟩), ("b", ⟨[("u", 0), ("v", 1)], []⟩)],
        [some 1, none], []⟩ =
      .ok ((([some 1, none] : List (Option ℚ)).enum.map (fun p =>
        buildRecord ⟨["a", "b"], [1, 2],
          [("a", ⟨[("x", 0)], []⟩), ("b", ⟨[("u", 0), ("v", 1)], []⟩)],
          [some 1, none], []⟩ p.1 p.2))) := by
  refine ⟨by decide, (claim_C6_no_shape_validation _ (by decide) (by decide)).1⟩

/-- C7: decoding a well-shaped one-cell cube produces the expected record —
except that its `status` field is the EMPTY string even though the cube's
status map has an entry for flat index 0: the code looks the map up with the
integer index (`status.get(idx, '')`), while the JSON-decoded map is keyed by
the index written as text, so the entry is never found. -/
theorem claim_C7_status_lookup_bug :
    parse_jsonstat ⟨["cities", "indic_ur", "time"], [1, 1, 1],
        [("cities", ⟨[("FR001C", 0)], [("FR001C", "Paris")]⟩),
         ("indic_ur", ⟨[("TT1", 0)], [("TT1", "Transport")]⟩),
         ("time", ⟨[("2020", 0)], []⟩)],
        [some 42], [(.str "0", "e")]⟩ =
      .ok [[("cities", .str "FR001C"), ("cities_label", .str "Paris"),
            ("indic_ur", .str "TT1"), ("indic_ur_label", .str "Transport"),
            ("time", .str "2020"), ("time_label", .str "2020"),
            ("value", .num 42), ("status", .str "")]] ∧
    statusGet [(.str "0", "e")] (.str "0") = some "e" ∧
    statusGet [(.str "0", "e")] (.int 0) = none := by
  refine ⟨by decide, by decide, by decide⟩

/-! ## C1: the shadowed fallback -/

/-- C1: on a store with a populated FR city and NO indicator data, the
effective `rank_cities_advanced` (the second definition, which shadows the
first) with non-empty weights returns the weighted ranking — the empty list —
instead of the population fallback the claim demands; the shadowed first
definition would have detected the missing data (`hasAnyData = false`) and
returned the population fallback; and only an empty weight map triggers the
fallback in the effective code. -/
theorem claim_C1_shadowed_fallback :
    rank_cities_advanced
        ⟨[⟨"FR001C", some "Paris", some "FR", none, none, some 2148000⟩], []⟩
        [("TT1", 1)] "FR" 5 = .ranked [] ∧
    rank_cities_advanced_shadowed
        ⟨[⟨"FR001C", some "Paris", some "FR", none, none, some 2148000⟩], []⟩
        [("TT1", 1)] "FR" 5 = .fallback [(some "Paris", some "FR", some 2148000)] ∧
    hasAnyData ⟨[⟨"FR001C", some "Paris", some "FR", none, none, some 2148000⟩], []⟩
        [("TT1", 1)] "FR" = false ∧
    rank_cities_advanced
        ⟨[⟨"FR001C", some "Paris", some "FR", none, none, some 2148000⟩], []⟩
        [] "FR" 5 = .fallback [(some "Paris", some "FR", some 2148000)] := by
  refine ⟨by decide, by decide, by decide, by decide⟩

/-! ## C10: country filter case sensitivity -/

/-- C10: for a stored entity whose country differs from the filter string only
in letter case, `list_cities` (which compares with UPPER on both sides)
returns the entity while `rank_cities` (which compares the raw TEXT values)
yields no row for it, for every weight map and limit. -/
theorem claim_C10_country_case (db : DB) (city : City) (C F : String)
    (hmem : city ∈ db.cities) (hc : city.country = some C)
    (hcase : sqlUpper F = sqlUpper C) (hne : F ≠ C)
    (huniq : (db.cities.map City.city_code).Nodup) :
    city ∈ list_cities db (some F) ∧
    ∀ (w : List (String × ℚ)) (limit : Nat) (r : ScoreRow),
      r ∈ rank_cities db w limit (some F) → r.city_code ≠ city.city_code := by
  have hFne : (F == "") = false := by
    rcases eq_or_ne F "" with h | h
    · exfalso
      subst h
      have hdata := congrArg String.data hcase
      simp only [sqlUpper] at hdata
      have hCdata : C.data.map upperChar = [] := by simpa using hdata.symm
      rw [List.map_eq_nil_iff] at hCdata
      apply hne
      cases C with
      | mk data =>
        simp only at hCdata
        rw [hCdata]
    · exact beq_eq_false_iff_ne.mpr h
  constructor
  · simp only [list_cities, hFne, Bool.false_eq_true, if_false]
    rw [mem_sortLe, List.mem_filter]
    refine ⟨hmem, ?_⟩
    rw [hc]
    simp only [countryEqUpper]
    exact beq_iff_eq.mpr hcase.symm
  · intro w limit r hr
    simp only [rank_cities, hFne, Bool.false_eq_true, if_false] at hr
    have hr2 := List.take_subset _ _ hr
    rw [mem_sortLe, List.mem_filterMap] at hr2
    obtain ⟨c', hc'mem, hc'eq⟩ := hr2
    rw [List.mem_filter] at hc'mem
    obtain ⟨hc'db, hc'pred⟩ := hc'mem
    have hc'country : c'.country = some F := by
      cases hcc : c'.country with
      | none =>
        simp only [countryEq, hcc] at hc'pred
        exact absurd hc'pred (by simp)
      | some s =>
        simp only [countryEq, hcc, beq_iff_eq] at hc'pred
        rw [hc'pred]
    intro hcode
    have hrc : r.city_code = c'.city_code := by
      by_cases hs : 0 < calculate_score db.indicators c'.city_code w
      · rw [if_pos hs, Option.some.injEq] at hc'eq
        rw [← hc'eq]
      · rw [if_neg hs] at hc'eq
        exact absurd hc'eq (by simp)
    have hceq : c' = city :=
      List.inj_on_of_nodup_map huniq hc'db hmem (by rw [← hrc, hcode])
    rw [hceq] at hc'country
    rw [hc] at hc'country
    exact hne ((Option.some.injEq _ _).mp hc'country).symm

/-- C10 witness: a store with one FR city, filtered with the lower-case
string "fr". -/
theorem claim_C10_country_case_witness :
    (⟨"FR001C", some "Paris", some "FR", none, none, some 100⟩ : City) ∈
      list_cities ⟨[⟨"FR001C", some "Paris", some "FR", none, none, some 100⟩], []⟩
        (some "fr") ∧
    ∀ (w : List (String × ℚ)) (limit : Nat) (r : ScoreRow),
      r ∈ rank_cities ⟨[⟨"FR001C", some "Paris", some "FR", none, none, some 100⟩], []⟩
        w limit (some "fr") →
      r.city_code ≠ (⟨"FR001C", some "Paris", some "FR", none, none, some 100⟩ : City).city_code :=
  claim_C10_country_case _ _ "FR" "fr" (by simp) rfl (by decide) (by decide) (by decide)

end Eurostat
